import Mathlib

/-!
Shallow embedding of `src/index.js` from hci-gu/canvas-exporter, and
verification of the specification's claims about it.

The embedded pieces are:
* the bounded-concurrency download queue (`enqueueDownloadTask`),
* the resumable transfer loop (`downloadWithResume`),
* the export selection logic (`getActiveCourseExport`),
* the per-course poll step (`downloadFilesFromCourse`) and the driver
  loop (`checkStatusAndDownload`).

Remote I/O and the filesystem are modelled as explicit oracle inputs;
the JavaScript event-loop steps of the scheduler are modelled as a
transition system whose atomic steps match the synchronous blocks of
the source.
-/

namespace CanvasExporter

/-- `MAX_CONCURRENT_DOWNLOADS` (src/index.js line 19). -/
def MAX_CONCURRENT_DOWNLOADS : Nat := 10

/-- State of the download queue machinery (src/index.js lines 19-55).
`activeDownloads` and `downloadQueue` are the two module-level mutable
bindings of the source; `running` is the multiset of task bodies
currently executing, `started` the log of task starts in order, and
`results` the settled promises of `enqueueDownloadTask`, each carrying
`true` for resolve and `false` for reject.  Task bodies are identified
by their submission index; `nextId` is the next index to hand out. -/
structure SchedState where
  activeDownloads : Nat
  downloadQueue : List Nat
  running : List Nat
  started : List Nat
  results : List (Nat × Bool)
  nextId : Nat
  deriving Repr, DecidableEq

/-- The initial scheduler state: counter 0, empty queue. -/
def initSched : SchedState := ⟨0, [], [], [], [], 0⟩

/-- The submission path of `enqueueDownloadTask` (lines 48-53): when the
counter is below capacity the task body starts immediately, otherwise
its `execute` closure is pushed to the back of `downloadQueue`. -/
def submit (s : SchedState) : SchedState :=
  let t := s.nextId
  if s.activeDownloads < MAX_CONCURRENT_DOWNLOADS then
    { s with
        activeDownloads := s.activeDownloads + 1
        running := s.running ++ [t]
        started := s.started ++ [t]
        nextId := t + 1 }
  else
    { s with downloadQueue := s.downloadQueue ++ [t], nextId := t + 1 }

/-- Completion of a running task body `t` with outcome `ok` — the
resolve/reject and the `finally` block of `execute` (lines 33-45): the
promise of `t` settles, the counter is decremented, and when the queue
is nonempty its head is dequeued and started within the same
synchronous step. -/
def complete (s : SchedState) (t : Nat) (ok : Bool) : SchedState :=
  let s1 : SchedState :=
    { s with
        running := s.running.erase t
        results := s.results ++ [(t, ok)]
        activeDownloads := s.activeDownloads - 1 }
  match s1.downloadQueue with
  | [] => s1
  | next :: rest =>
    { s1 with
        activeDownloads := s1.activeDownloads + 1
        downloadQueue := rest
        running := s1.running ++ [next]
        started := s1.started ++ [next] }

/-- An event of the scheduler: a new submission, or the completion of a
running task body. -/
inductive SchedEvent where
  | submit
  | complete (t : Nat) (ok : Bool)
  deriving Repr, DecidableEq

/-- One scheduler step.  A completion event for a task that is not
currently running is ignored (such an event cannot arise in the
source program). -/
def schedStep (s : SchedState) : SchedEvent → SchedState
  | .submit => submit s
  | .complete t ok => if t ∈ s.running then complete s t ok else s

/-- Run a sequence of scheduler events from the initial state. -/
def runEvents (evts : List SchedEvent) : SchedState :=
  evts.foldl schedStep initSched

/-- The scheduler invariant: the counter tracks the number of running
bodies, never exceeds capacity, the queue is only populated at full
capacity, waiters sit in the queue in submission order, and all issued
ids are below `nextId`. -/
def SchedInv (s : SchedState) : Prop :=
  s.activeDownloads = s.running.length ∧
  s.activeDownloads ≤ MAX_CONCURRENT_DOWNLOADS ∧
  (s.downloadQueue ≠ [] → s.activeDownloads = MAX_CONCURRENT_DOWNLOADS) ∧
  s.downloadQueue.Pairwise (· < ·) ∧
  (∀ t ∈ s.downloadQueue, t < s.nextId) ∧
  (∀ t ∈ s.running, t < s.nextId)

/-! ### Resumable transfer: `downloadWithResume` (src/index.js lines 64-108) -/

/-- On-disk state of the destination file: `none` when the file is
absent, `some n` when it exists with size `n` bytes.
`fs.existsSync(filePath) ? fs.statSync(filePath).size : 0` (line 71). -/
def diskSize (disk : Option Nat) : Nat := disk.getD 0

/-- What the transport returns for one attempt: a network/transport
error before any response, or a response with a status code together
with how the body stream behaves when piped to the file: how many
bytes reach the disk, and whether the stream finishes cleanly. -/
inductive Transport where
  | netError
  | response (code : Nat) (bytesDelivered : Nat) (streamOk : Bool)
  deriving Repr, DecidableEq

/-- The `validateStatus` callback of the axios request (line 87): only
200, 206 and 416 are accepted; any other status makes axios throw. -/
def validateStatus (status : Nat) : Bool := status ∈ [200, 206, 416]

/-- How one attempt ended: a 416 (already complete), a write of the
body stream (`ok` = stream finished), or an error with no write
(transport failure or a rejected status). -/
inductive AttemptOutcome where
  | got416
  | wrote (ok : Bool)
  | httpError
  deriving Repr, DecidableEq

/-- Record of one attempt of the retry loop: the attempt index, the
resume offset read from disk at its start, the `Range` header sent
(`some o` for `bytes=o-`, `none` when omitted), the response status if
one was received, the number of bytes appended to the file, the
outcome, and the backoff delay waited after the attempt (`none` when
the attempt returned or threw terminally). -/
structure AttemptRec where
  idx : Nat
  offsetUsed : Nat
  rangeHeader : Option Nat
  code? : Option Nat
  bytesWritten : Nat
  outcome : AttemptOutcome
  delayAfter : Option Nat
  deriving Repr, DecidableEq

/-- Overall result of `downloadWithResume`: the promise resolves
(`success`) or rejects with the last error (`failure`). -/
inductive DlResult where
  | success
  | failure
  deriving Repr, DecidableEq

/-- Trace of a whole `downloadWithResume` call: the attempt records in
order, the overall result, and the final on-disk state. -/
structure DlTrace where
  attempts : List AttemptRec
  result : DlResult
  finalDisk : Option Nat
  deriving Repr, DecidableEq

/-- Result of the `try` block of one attempt (lines 80-96): either the
function returns (`ok`), or the error is caught (`caught`); both carry
the attempt record and the on-disk state afterwards. -/
inductive AttemptResult where
  | ok (rec : AttemptRec) (disk : Option Nat)
  | caught (rec : AttemptRec) (disk : Option Nat)
  deriving Repr, DecidableEq

/-- One attempt of `downloadWithResume` (lines 70-96): re-read the file
size, build the headers (`Range` only when the offset is positive),
issue the request, return on 416, otherwise append the body stream to
the file (`flags: 'a'`; bytes flushed before a stream failure stay on
disk). -/
def runAttempt (env : Nat → Transport) (attempt : Nat) (disk : Option Nat) :
    AttemptResult :=
  let alreadyHave := diskSize disk
  let rangeHeader : Option Nat := if alreadyHave > 0 then some alreadyHave else none
  match env attempt with
  | .netError =>
    .caught { idx := attempt, offsetUsed := alreadyHave, rangeHeader := rangeHeader,
              code? := none, bytesWritten := 0, outcome := .httpError,
              delayAfter := none } disk
  | .response code bytes streamOk =>
    if validateStatus code then
      if code = 416 then
        .ok { idx := attempt, offsetUsed := alreadyHave, rangeHeader := rangeHeader,
              code? := some code, bytesWritten := 0, outcome := .got416,
              delayAfter := none } disk
      else
        let disk' := some (alreadyHave + bytes)
        if streamOk then
          .ok { idx := attempt, offsetUsed := alreadyHave, rangeHeader := rangeHeader,
                code? := some code, bytesWritten := bytes, outcome := .wrote true,
                delayAfter := none } disk'
        else
          .caught { idx := attempt, offsetUsed := alreadyHave, rangeHeader := rangeHeader,
                    code? := some code, bytesWritten := bytes, outcome := .wrote false,
                    delayAfter := none } disk'
    else
      .caught { idx := attempt, offsetUsed := alreadyHave, rangeHeader := rangeHeader,
                code? := some code, bytesWritten := 0, outcome := .httpError,
                delayAfter := none } disk

/-- The backoff delay of the catch block (line 101):
`Math.min(2 ** attempt * 1_000, 30_000)`. -/
def backoffDelay (attempt : Nat) : Nat := min (2 ^ attempt * 1000) 30000

/-- The retry loop of `downloadWithResume` (lines 69-107), recursing on
the number of attempts still allowed after the current one: `left`
counts the remaining budget, so the source's loop bound
`attempt <= retries` and its terminal test `attempt === retries`
correspond to `left = 0` under the driver's invariant
`attempt + left = retries`.  On a caught error with budget left, wait
the backoff delay and run the next attempt on the updated disk state;
with no budget left, rethrow terminally. -/
def dwrGo (env : Nat → Transport) : (left : Nat) → (attempt : Nat) →
    (disk : Option Nat) → DlTrace
  | 0, attempt, disk =>
    match runAttempt env attempt disk with
    | .ok rec disk' => { attempts := [rec], result := .success, finalDisk := disk' }
    | .caught rec disk' => { attempts := [rec], result := .failure, finalDisk := disk' }
  | left + 1, attempt, disk =>
    match runAttempt env attempt disk with
    | .ok rec disk' => { attempts := [rec], result := .success, finalDisk := disk' }
    | .caught rec disk' =>
      let rest := dwrGo env left (attempt + 1) disk'
      { attempts := { rec with delayAfter := some (backoffDelay attempt) } :: rest.attempts,
        result := rest.result,
        finalDisk := rest.finalDisk }

/-- The default retry budget of `downloadWithResume` (line 68). -/
def defaultRetries : Nat := 5

/-- `downloadWithResume(url, filePath, retries)`: run the retry loop
from attempt 0, with the whole budget left, on the given initial disk
state. -/
def downloadWithResume (env : Nat → Transport) (retries : Nat)
    (disk : Option Nat) : DlTrace :=
  dwrGo env retries 0 disk

/-- Total number of bytes the attempts of a trace appended to the
destination file. -/
def sumWritten (l : List AttemptRec) : Nat := (l.map AttemptRec.bytesWritten).sum

/-- The attempt record and resulting disk state of an attempt,
independent of whether the attempt returned or threw. -/
def resultParts : AttemptResult → AttemptRec × Option Nat
  | .ok rec disk => (rec, disk)
  | .caught rec disk => (rec, disk)

/-! ### Export selection and the poll loop (src/index.js lines 110-252) -/

/-- `EXPORT_AFTER_THIS_DATE` (line 9), `new Date('2025-06-08')`, as a
millisecond timestamp; `created_at` values are modelled the same way. -/
def EXPORT_AFTER_THIS_DATE : Nat := 1749340800000

/-- An export's attachment: remote URL and filename. -/
structure Attachment where
  url : String
  filename : String
  deriving Repr, DecidableEq

/-- One entry of the content-exports listing. -/
structure ExportItem where
  workflow_state : String
  attachment : Option Attachment
  created_at : Nat
  deriving Repr, DecidableEq

/-- The filter callback of `getActiveCourseExport` (lines 134-139):
state `exported`, a non-null attachment, and
`new Date(created_at) >= EXPORT_AFTER_THIS_DATE`. -/
def isActiveExport (e : ExportItem) : Bool :=
  e.workflow_state == "exported" && e.attachment.isSome &&
    decide (EXPORT_AFTER_THIS_DATE ≤ e.created_at)

/-- The sort order of the comparator on line 140,
`(a, b) => new Date(b.created_at) - new Date(a.created_at)`:
newest first. -/
def newerEq (a b : ExportItem) : Prop := b.created_at ≤ a.created_at

instance : DecidableRel newerEq := fun a b => Nat.decLe b.created_at a.created_at

instance : IsTotal ExportItem newerEq :=
  ⟨fun a b => (Nat.le_total b.created_at a.created_at).elim Or.inl Or.inr⟩

instance : IsTrans ExportItem newerEq :=
  ⟨fun _ _ _ hab hbc => Nat.le_trans hbc hab⟩

/-- `getActiveCourseExport` (lines 122-151): on a listing failure the
error is swallowed and `null` returned; otherwise the entries are
filtered, sorted newest first (JS `Array.prototype.sort` is stable;
modelled by a stable insertion sort) and the first one — or `null` on
an empty result — is returned. -/
def getActiveCourseExport (fetch : Except Unit (List ExportItem)) :
    Option ExportItem :=
  match fetch with
  | .error _ => none
  | .ok exports =>
    let activeExports := (exports.filter isActiveExport).insertionSort newerEq
    activeExports.head?

/-- What the body of `downloadFilesFromCourse` eventually performs and
resolves to (lines 176-197): create a new export and resolve null, or
dispatch a download of the attachment through the queue, or resolve
null without any action (the defensive final `return null`). -/
inductive CourseAction where
  | createExport
  | dispatch (att : Attachment)
  | resolveNull
  deriving Repr, DecidableEq

/-- The body of `downloadFilesFromCourse` (lines 176-197), given the
outcome of the content-exports listing for the course. -/
def downloadFilesFromCourse (fetch : Except Unit (List ExportItem)) :
    CourseAction :=
  match getActiveCourseExport fetch with
  | none => .createExport
  | some activeExport =>
    if activeExport.workflow_state == "exported" then
      match activeExport.attachment with
      | some att => .dispatch att
      | none => .resolveNull
    else
      .resolveNull

/-- A JavaScript value as scrutinised by `if (downloadPromise)` in the
driver loop: `null`, or a Promise (carrying what it later resolves
to). -/
inductive JsValue where
  | nullv
  | promiseOf (action : CourseAction)
  deriving Repr, DecidableEq

/-- JavaScript truthiness of such a value: `null` is falsy, any Promise
object is truthy. -/
def truthy : JsValue → Bool
  | .nullv => false
  | .promiseOf _ => true

/-- The immediate value of the call `downloadFilesFromCourse(course)`
on line 221: `downloadFilesFromCourse` is an `async function`, so the
call expression always evaluates to a Promise object which resolves
later to the body's outcome. -/
def downloadFilesFromCourseCall (fetch : Except Unit (List ExportItem)) :
    JsValue :=
  .promiseOf (downloadFilesFromCourse fetch)

/-- A course, as far as the driver loop consumes it. -/
structure Course where
  id : Nat
  name : String
  deriving Repr, DecidableEq

/-- The environment one course meets in a round: the outcome of its
content-exports listing, whether an `.imscc` artifact already exists
in its folder (`checkIfCourseFileExported`), and whether a dispatched
transfer of its attachment would succeed. -/
structure CourseEnv where
  fetch : Except Unit (List ExportItem)
  fileExported : Bool
  downloadOk : Bool

/-- A remote request observable in a round. -/
inductive ReqEvent where
  | createExport (courseId : Nat)
  | dispatchDownload (courseId : Nat) (att : Attachment)
  deriving Repr, DecidableEq

/-- The remote requests a course action gives rise to. -/
def actionEvents (courseId : Nat) : CourseAction → List ReqEvent
  | .createExport => [.createExport courseId]
  | .dispatch att => [.dispatchDownload courseId att]
  | .resolveNull => []

/-- Accumulated state of one round of the driver loop: the
`downloadPromises` array, the `stillPending` array, and the remote
requests issued by the course promises of the round. -/
structure RoundState where
  downloadPromises : List (Course × JsValue)
  stillPending : List Course
  events : List ReqEvent
  deriving Repr, DecidableEq

/-- One iteration of the `for` loop of `checkStatusAndDownload`
(lines 214-228): skip courses whose artifact already exists; otherwise
call `downloadFilesFromCourse` without awaiting it, and push the
resulting value to `downloadPromises` when truthy, else push the
course to `stillPending`. -/
def roundStep (env : Nat → CourseEnv) (s : RoundState) (course : Course) :
    RoundState :=
  if (env course.id).fileExported then s
  else
    let downloadPromise := downloadFilesFromCourseCall (env course.id).fetch
    let s' : RoundState :=
      { s with
          events := s.events ++
            actionEvents course.id (downloadFilesFromCourse (env course.id).fetch) }
    if truthy downloadPromise then
      { s' with downloadPromises := s'.downloadPromises ++ [(course, downloadPromise)] }
    else
      { s' with stillPending := s'.stillPending ++ [course] }

/-- One full round of the driver loop over the pending courses. -/
def runRound (env : Nat → CourseEnv) (pending : List Course) : RoundState :=
  pending.foldl (roundStep env) ⟨[], [], []⟩

/-- Outcome of the driver loop. -/
inductive LoopResult where
  | finished
  | outOfFuel
  deriving Repr, DecidableEq

/-- The `while (true)` driver loop of `checkStatusAndDownload`
(lines 207-252), with explicit fuel for the shallow embedding: run a
round, await the collected download promises (failures are caught and
only logged), exit when `stillPending` is empty, otherwise wait and
run the next round on the still-pending courses.  The trace of round
states is returned alongside the outcome. -/
def checkStatusAndDownload (env : Nat → CourseEnv) :
    Nat → List Course → LoopResult × List RoundState
  | 0, _ => (.outOfFuel, [])
  | fuel + 1, pending =>
    let r := runRound env pending
    if r.stillPending.isEmpty then (.finished, [r])
    else
      let next := checkStatusAndDownload env fuel r.stillPending
      (next.1, r :: next.2)

/-- Replace the `downloadOk` oracle of an environment, keeping the
listing outcomes and the on-disk artifact states. -/
def setDownloadOk (env : Nat → CourseEnv) (dlOk : Nat → Bool) :
    Nat → CourseEnv :=
  fun id => { env id with downloadOk := dlOk id }

/-! ### Concrete instances used by witnesses and counterexamples -/

/-- A qualifying export entry created one millisecond after the cutoff. -/
def exWitOld : ExportItem :=
  { workflow_state := "exported", attachment := some ⟨"https://u1", "a.imscc"⟩,
    created_at := EXPORT_AFTER_THIS_DATE + 1 }

/-- A qualifying export entry created two milliseconds after the
cutoff: newer than `exWitOld`. -/
def exWitNew : ExportItem :=
  { workflow_state := "exported", attachment := some ⟨"https://u2", "b.imscc"⟩,
    created_at := EXPORT_AFTER_THIS_DATE + 2 }

/-- A course with no qualifying export in any round. -/
def courseWitC7 : Course := ⟨101, "Course A"⟩

/-- Environment for `courseWitC7`: no artifact on disk, listing
succeeds with zero entries. -/
def envWitC7 : Nat → CourseEnv := fun _ => ⟨.ok [], false, true⟩

/-- A course whose listing never holds a qualifying entry. -/
def courseWitB1 : Course := ⟨1, "No Export"⟩

/-- A course with a qualifying export whose transfer fails. -/
def courseWitB2 : Course := ⟨2, "Failing Download"⟩

/-- The attachment of course 2's export. -/
def attWitC1 : Attachment := ⟨"https://files/2.imscc", "2.imscc"⟩

/-- Course 2's qualifying export entry. -/
def exportWitC1 : ExportItem :=
  { workflow_state := "exported", attachment := some attWitC1,
    created_at := EXPORT_AFTER_THIS_DATE }

/-- Environment for the C1 counterexample: neither course has an
artifact on disk; course 2's transfer would fail. -/
def envWitC1 : Nat → CourseEnv := fun id =>
  if id = 2 then ⟨.ok [exportWitC1], false, false⟩ else ⟨.ok [], false, true⟩

/-- A course whose listing request fails. -/
def courseWitC10 : Course := ⟨7, "Err Course"⟩

/-- Environment for `courseWitC10`: the list-exports request errors. -/
def envWitC10 : Nat → CourseEnv := fun _ => ⟨.error (), false, true⟩

/-- Transport oracle for the transfer witnesses: attempt 0 gets a 200
whose stream dies after 5 bytes, every later attempt a 206 that
completes with 7 more bytes. -/
def envWitA : Nat → Transport :=
  fun n => if n = 0 then .response 200 5 false else .response 206 7 true

/-- The second attempt record produced by `envWitA` from an absent
file: it resumes at offset 5 with a `Range` header. -/
def recWitA : AttemptRec :=
  { idx := 1, offsetUsed := 5, rangeHeader := some 5, code? := some 206,
    bytesWritten := 7, outcome := .wrote true, delayAfter := none }

/-- Transport oracle answering 416 to every request. -/
def envWit416 : Nat → Transport := fun _ => .response 416 0 true

/-- The attempt record produced by `envWit416` on a 12-byte file. -/
def recWit416 : AttemptRec :=
  { idx := 0, offsetUsed := 12, rangeHeader := some 12, code? := some 416,
    bytesWritten := 0, outcome := .got416, delayAfter := none }

/-- Transport oracle that always fails before a response. -/
def envWitFail : Nat → Transport := fun _ => .netError

/-- The first attempt record of a transfer against `envWitFail`. -/
def recWitFail : AttemptRec :=
  { idx := 0, offsetUsed := 0, rangeHeader := none, code? := none,
    bytesWritten := 0, outcome := .httpError, delayAfter := some 1000 }

/-! ### Scheduler invariants -/

theorem schedInv_init : SchedInv initSched := by
  refine ⟨rfl, by simp [initSched, MAX_CONCURRENT_DOWNLOADS], ?_, ?_, ?_, ?_⟩ <;>
    simp [initSched]

theorem schedInv_submit {s : SchedState} (h : SchedInv s) : SchedInv (submit s) := by
  obtain ⟨h1, h2, h3, h4, h5, h6⟩ := h
  unfold submit SchedInv
  by_cases hc : s.activeDownloads < MAX_CONCURRENT_DOWNLOADS
  · simp only [hc, if_true]
    refine ⟨by simp [h1], hc, ?_, h4, ?_, ?_⟩
    · intro hq
      exact absurd (h3 hq) (Nat.ne_of_lt hc)
    · intro t ht
      exact Nat.lt_succ_of_lt (h5 t ht)
    · intro t ht
      rcases List.mem_append.mp ht with ht | ht
      · exact Nat.lt_succ_of_lt (h6 t ht)
      · simp only [List.mem_singleton] at ht
        omega
  · simp only [hc, if_false]
    refine ⟨h1, h2, fun _ => by omega, ?_, ?_, ?_⟩
    · refine List.pairwise_append.mpr ⟨h4, List.pairwise_singleton _ _, ?_⟩
      intro a ha b hb
      simp only [List.mem_singleton] at hb
      exact hb ▸ h5 a ha
    · intro t ht
      rcases List.mem_append.mp ht with ht | ht
      · exact Nat.lt_succ_of_lt (h5 t ht)
      · simp only [List.mem_singleton] at ht
        omega
    · intro t ht
      exact Nat.lt_succ_of_lt (h6 t ht)

theorem schedInv_complete {s : SchedState} {t : Nat} {ok : Bool}
    (hmem : t ∈ s.running) (h : SchedInv s) : SchedInv (complete s t ok) := by
  obtain ⟨h1, h2, h3, h4, h5, h6⟩ := h
  have hlen : (s.running.erase t).length = s.running.length - 1 :=
    List.length_erase_of_mem hmem
  have hpos : 1 ≤ s.running.length := List.length_pos.mpr (List.ne_nil_of_mem hmem)
  have herase_sub : ∀ x ∈ s.running.erase t, x < s.nextId := by
    intro x hx
    exact h6 x (List.mem_of_mem_erase hx)
  unfold complete SchedInv
  cases hq : s.downloadQueue with
  | nil =>
    simp only [hq]
    exact ⟨by simp [hlen, h1], by omega, by simp, by simp, by simp, herase_sub⟩
  | cons next rest =>
    have hfull : s.activeDownloads = MAX_CONCURRENT_DOWNLOADS := h3 (by simp [hq])
    simp only [hq]
    refine ⟨?_, by omega, ?_, ?_, ?_, ?_⟩
    · simp only [List.length_append, List.length_singleton, hlen, h1]
    · intro _
      omega
    · exact (List.pairwise_cons.mp (hq ▸ h4)).2
    · intro x hx
      exact h5 x (by simp [hq, hx])
    · intro x hx
      rcases List.mem_append.mp hx with hx | hx
      · exact herase_sub x hx
      · simp only [List.mem_singleton] at hx
        exact hx ▸ h5 next (by simp [hq])

theorem schedInv_step (s : SchedState) (e : SchedEvent) (h : SchedInv s) :
    SchedInv (schedStep s e) := by
  cases e with
  | submit => exact schedInv_submit h
  | complete t ok =>
    unfold schedStep
    by_cases hmem : t ∈ s.running
    · simpa [hmem] using schedInv_complete hmem h
    · simpa [hmem] using h

theorem schedInv_foldl (evts : List SchedEvent) :
    ∀ s : SchedState, SchedInv s → SchedInv (evts.foldl schedStep s) := by
  induction evts with
  | nil => intro s h; exact h
  | cons e rest ih =>
    intro s h
    exact ih (schedStep s e) (schedInv_step s e h)

theorem schedInv_runEvents (evts : List SchedEvent) : SchedInv (runEvents evts) :=
  schedInv_foldl evts initSched schedInv_init

/-! ### Facts about single attempts of the transfer -/

theorem sumWritten_nil : sumWritten [] = 0 := rfl

theorem sumWritten_cons (a : AttemptRec) (l : List AttemptRec) :
    sumWritten (a :: l) = a.bytesWritten + sumWritten l := by
  simp [sumWritten]

theorem runAttempt_spec (env : Nat → Transport) (attempt : Nat) (disk : Option Nat)
    (rec : AttemptRec) (disk' : Option Nat)
    (h : resultParts (runAttempt env attempt disk) = (rec, disk')) :
    rec.idx = attempt ∧
    rec.offsetUsed = diskSize disk ∧
    rec.rangeHeader = (if 0 < rec.offsetUsed then some rec.offsetUsed else none) ∧
    rec.delayAfter = none ∧
    diskSize disk' = diskSize disk + rec.bytesWritten ∧
    (rec.outcome = .got416 → rec.bytesWritten = 0 ∧ rec.code? = some 416 ∧ disk' = disk) ∧
    (0 < rec.bytesWritten → rec.code? = some 200 ∨ rec.code? = some 206) ∧
    (∀ c, rec.code? = some c → validateStatus c = false →
        rec.outcome = .httpError ∧ rec.bytesWritten = 0) := by
  unfold runAttempt at h
  split at h
  · -- transport error before any response
    simp only [resultParts, Prod.mk.injEq] at h
    obtain ⟨hrec, hdisk⟩ := h
    subst hrec; subst hdisk
    refine ⟨rfl, rfl, rfl, rfl, by simp, by simp, by simp, by simp⟩
  · -- a response arrived
    rename_i code bytes streamOk henv
    split at h
    · rename_i hv
      split at h
      · -- 416: already complete, return with no write
        rename_i h416
        simp only [resultParts, Prod.mk.injEq] at h
        obtain ⟨hrec, hdisk⟩ := h
        subst hrec; subst hdisk
        subst h416
        refine ⟨rfl, rfl, rfl, rfl, by simp, by simp, by simp, ?_⟩
        intro c hc hcv
        injection hc with hc
        subst hc
        simp [validateStatus] at hcv
      · -- 200/206: append the stream to the file
        rename_i h416
        have hv' : code = 200 ∨ code = 206 := by
          simp [validateStatus] at hv
          rcases hv with hv | hv | hv
          · exact Or.inl hv
          · exact Or.inr hv
          · exact absurd hv h416
        split at h
        · -- the stream finished: return success
          simp only [resultParts, Prod.mk.injEq] at h
          obtain ⟨hrec, hdisk⟩ := h
          subst hrec; subst hdisk
          refine ⟨rfl, rfl, rfl, rfl, by simp [diskSize], by simp, ?_, ?_⟩
          · intro _
            rcases hv' with rfl | rfl
            · exact Or.inl rfl
            · exact Or.inr rfl
          · intro c hc hcv
            injection hc with hc
            subst hc
            rw [hv] at hcv
            exact absurd hcv (by simp)
        · -- the stream failed partway: the flushed bytes stay on disk
          simp only [resultParts, Prod.mk.injEq] at h
          obtain ⟨hrec, hdisk⟩ := h
          subst hrec; subst hdisk
          refine ⟨rfl, rfl, rfl, rfl, by simp [diskSize], by simp, ?_, ?_⟩
          · intro _
            rcases hv' with rfl | rfl
            · exact Or.inl rfl
            · exact Or.inr rfl
          · intro c hc hcv
            injection hc with hc
            subst hc
            rw [hv] at hcv
            exact absurd hcv (by simp)
    · -- status outside the accepted set: axios throws, nothing written
      rename_i hv
      simp only [resultParts, Prod.mk.injEq] at h
      obtain ⟨hrec, hdisk⟩ := h
      subst hrec; subst hdisk
      refine ⟨rfl, rfl, rfl, rfl, by simp, by simp, by simp, ?_⟩
      intro c hc _
      injection hc with hc
      subst hc
      exact ⟨rfl, rfl⟩

theorem runAttempt_caught_outcome (env : Nat → Transport) (attempt : Nat)
    (disk : Option Nat) (rec : AttemptRec) (disk' : Option Nat)
    (h : runAttempt env attempt disk = .caught rec disk') :
    rec.outcome ≠ .got416 := by
  unfold runAttempt at h
  split at h
  · injection h with h1 _
    subst h1
    simp
  · split at h
    · split at h
      · exact absurd h (by simp)
      · split at h
        · exact absurd h (by simp)
        · injection h with h1 _
          subst h1
          simp
    · injection h with h1 _
      subst h1
      simp

/-! ### Invariants of the retry loop -/

theorem dwrGo_length (env : Nat → Transport) :
    ∀ left attempt disk,
      1 ≤ (dwrGo env left attempt disk).attempts.length ∧
      (dwrGo env left attempt disk).attempts.length ≤ left + 1 ∧
      ((dwrGo env left attempt disk).result = .failure →
        (dwrGo env left attempt disk).attempts.length = left + 1) := by
  intro left
  induction left with
  | zero =>
    intro attempt disk
    unfold dwrGo
    cases h : runAttempt env attempt disk <;> simp
  | succ n ih =>
    intro attempt disk
    unfold dwrGo
    cases h : runAttempt env attempt disk with
    | ok rec disk' => simp
    | caught rec disk' =>
      obtain ⟨ih1, ih2, ih3⟩ := ih (attempt + 1) disk'
      simp only [List.length_cons]
      refine ⟨by omega, by omega, ?_⟩
      intro hf
      rw [ih3 hf]

theorem dwrGo_offsets (env : Nat → Transport) :
    ∀ left attempt disk i rec,
      (dwrGo env left attempt disk).attempts[i]? = some rec →
      rec.idx = attempt + i ∧
      rec.offsetUsed
        = diskSize disk + sumWritten ((dwrGo env left attempt disk).attempts.take i) ∧
      rec.rangeHeader = (if 0 < rec.offsetUsed then some rec.offsetUsed else none) ∧
      (rec.outcome = .got416 → rec.bytesWritten = 0 ∧ rec.code? = some 416) ∧
      (0 < rec.bytesWritten → rec.code? = some 200 ∨ rec.code? = some 206) ∧
      (∀ c, rec.code? = some c → validateStatus c = false →
        rec.outcome = .httpError ∧ rec.bytesWritten = 0) := by
  intro left
  induction left with
  | zero =>
    intro attempt disk i rec hi
    unfold dwrGo at hi ⊢
    cases h : runAttempt env attempt disk with
    | ok rec0 disk' =>
      rw [h] at hi
      obtain ⟨hs1, hs2, hs3, hs4, hs5, hs6, hs7, hs8⟩ :=
        runAttempt_spec env attempt disk rec0 disk' (by rw [h]; rfl)
      cases i with
      | zero =>
        simp only [List.getElem?_cons_zero, Option.some.injEq] at hi
        subst hi
        dsimp only
        exact ⟨by simpa using hs1, by simpa [sumWritten] using hs2,
          hs3, fun h0 => ⟨(hs6 h0).1, (hs6 h0).2.1⟩, hs7, hs8⟩
      | succ j =>
        simp at hi
    | caught rec0 disk' =>
      rw [h] at hi
      obtain ⟨hs1, hs2, hs3, hs4, hs5, hs6, hs7, hs8⟩ :=
        runAttempt_spec env attempt disk rec0 disk' (by rw [h]; rfl)
      cases i with
      | zero =>
        simp only [List.getElem?_cons_zero, Option.some.injEq] at hi
        subst hi
        dsimp only
        exact ⟨by simpa using hs1, by simpa [sumWritten] using hs2,
          hs3, fun h0 => ⟨(hs6 h0).1, (hs6 h0).2.1⟩, hs7, hs8⟩
      | succ j =>
        simp at hi
  | succ n ih =>
    intro attempt disk i rec hi
    unfold dwrGo at hi ⊢
    cases h : runAttempt env attempt disk with
    | ok rec0 disk' =>
      rw [h] at hi
      obtain ⟨hs1, hs2, hs3, hs4, hs5, hs6, hs7, hs8⟩ :=
        runAttempt_spec env attempt disk rec0 disk' (by rw [h]; rfl)
      cases i with
      | zero =>
        simp only [List.getElem?_cons_zero, Option.some.injEq] at hi
        subst hi
        dsimp only
        exact ⟨by simpa using hs1, by simpa [sumWritten] using hs2,
          hs3, fun h0 => ⟨(hs6 h0).1, (hs6 h0).2.1⟩, hs7, hs8⟩
      | succ j =>
        simp at hi
    | caught rec0 disk' =>
      rw [h] at hi
      obtain ⟨hs1, hs2, hs3, hs4, hs5, hs6, hs7, hs8⟩ :=
        runAttempt_spec env attempt disk rec0 disk' (by rw [h]; rfl)
      cases i with
      | zero =>
        simp only [List.getElem?_cons_zero, Option.some.injEq] at hi
        subst hi
        dsimp only
        refine ⟨by simpa using hs1, by simpa [sumWritten] using hs2,
          hs3, fun h0 => ⟨(hs6 h0).1, (hs6 h0).2.1⟩, hs7, hs8⟩
      | succ j =>
        simp only [List.getElem?_cons_succ] at hi
        obtain ⟨ih1, ih2, ih3, ih4, ih5, ih6⟩ := ih (attempt + 1) disk' j rec hi
        dsimp only
        refine ⟨by omega, ?_, ih3, ih4, ih5, ih6⟩
        simp only [List.take_succ_cons, sumWritten_cons]
        rw [ih2, hs5]
        omega

theorem dwrGo_delays (env : Nat → Transport) :
    ∀ left attempt disk i rec,
      (dwrGo env left attempt disk).attempts[i]? = some rec →
      (i + 1 < (dwrGo env left attempt disk).attempts.length →
         rec.delayAfter = some (backoffDelay (attempt + i))) ∧
      (i + 1 = (dwrGo env left attempt disk).attempts.length →
         rec.delayAfter = none) := by
  intro left
  induction left with
  | zero =>
    intro attempt disk i rec hi
    unfold dwrGo at hi ⊢
    cases h : runAttempt env attempt disk with
    | ok rec0 disk' =>
      rw [h] at hi
      obtain ⟨-, -, -, hs4, -⟩ :=
        runAttempt_spec env attempt disk rec0 disk' (by rw [h]; rfl)
      cases i with
      | zero =>
        simp only [List.getElem?_cons_zero, Option.some.injEq] at hi
        subst hi
        dsimp only
        exact ⟨fun hl => absurd hl (by simp), fun _ => hs4⟩
      | succ j => simp at hi
    | caught rec0 disk' =>
      rw [h] at hi
      obtain ⟨-, -, -, hs4, -⟩ :=
        runAttempt_spec env attempt disk rec0 disk' (by rw [h]; rfl)
      cases i with
      | zero =>
        simp only [List.getElem?_cons_zero, Option.some.injEq] at hi
        subst hi
        dsimp only
        exact ⟨fun hl => absurd hl (by simp), fun _ => hs4⟩
      | succ j => simp at hi
  | succ n ih =>
    intro attempt disk i rec hi
    unfold dwrGo at hi ⊢
    cases h : runAttempt env attempt disk with
    | ok rec0 disk' =>
      rw [h] at hi
      obtain ⟨-, -, -, hs4, -⟩ :=
        runAttempt_spec env attempt disk rec0 disk' (by rw [h]; rfl)
      cases i with
      | zero =>
        simp only [List.getElem?_cons_zero, Option.some.injEq] at hi
        subst hi
        dsimp only
        exact ⟨fun hl => absurd hl (by simp), fun _ => hs4⟩
      | succ j => simp at hi
    | caught rec0 disk' =>
      rw [h] at hi
      obtain ⟨hrest, -, -⟩ := dwrGo_length env n (attempt + 1) disk'
      cases i with
      | zero =>
        simp only [List.getElem?_cons_zero, Option.some.injEq] at hi
        subst hi
        dsimp only
        constructor
        · intro _
          rfl
        · intro hlen
          simp only [List.length_cons] at hlen
          omega
      | succ j =>
        simp only [List.getElem?_cons_succ] at hi
        obtain ⟨ih1, ih2⟩ := ih (attempt + 1) disk' j rec hi
        dsimp only
        simp only [List.length_cons]
        have harith : attempt + 1 + j = attempt + (j + 1) := by omega
        constructor
        · intro hlt
          rw [← harith]
          exact ih1 (by omega)
        · intro heq
          exact ih2 (by omega)

theorem dwrGo_got416 (env : Nat → Transport) :
    ∀ left attempt disk i rec,
      (dwrGo env left attempt disk).attempts[i]? = some rec →
      rec.outcome = .got416 →
      i + 1 = (dwrGo env left attempt disk).attempts.length ∧
      (dwrGo env left attempt disk).result = .success := by
  intro left
  induction left with
  | zero =>
    intro attempt disk i rec hi hrec
    unfold dwrGo at hi ⊢
    cases h : runAttempt env attempt disk with
    | ok rec0 disk' =>
      rw [h] at hi
      cases i with
      | zero =>
        dsimp only
        exact ⟨rfl, rfl⟩
      | succ j => simp at hi
    | caught rec0 disk' =>
      rw [h] at hi
      cases i with
      | zero =>
        simp only [List.getElem?_cons_zero, Option.some.injEq] at hi
        subst hi
        exact absurd hrec (runAttempt_caught_outcome env attempt disk rec0 disk' h)
      | succ j => simp at hi
  | succ n ih =>
    intro attempt disk i rec hi hrec
    unfold dwrGo at hi ⊢
    cases h : runAttempt env attempt disk with
    | ok rec0 disk' =>
      rw [h] at hi
      cases i with
      | zero =>
        dsimp only
        exact ⟨rfl, rfl⟩
      | succ j => simp at hi
    | caught rec0 disk' =>
      rw [h] at hi
      cases i with
      | zero =>
        simp only [List.getElem?_cons_zero, Option.some.injEq] at hi
        have : rec0.outcome = AttemptOutcome.got416 := by
          rw [← hi] at hrec
          simpa using hrec
        exact absurd this (runAttempt_caught_outcome env attempt disk rec0 disk' h)
      | succ j =>
        simp only [List.getElem?_cons_succ] at hi
        obtain ⟨ih1, ih2⟩ := ih (attempt + 1) disk' j rec hi hrec
        dsimp only
        simp only [List.length_cons]
        exact ⟨by omega, ih2⟩

/-! ### Claims about the resumable transfer -/

/-- Claim C3: in every attempt of `downloadWithResume` the resume
offset equals the destination file's actual on-disk size at the start
of that attempt — the initial size (0 when the file is absent) plus
exactly the bytes appended by all earlier attempts, so it is re-read
fresh rather than carried over — and the `Range` header is present
if and only if that offset is positive, in which case it starts at the
offset. -/
theorem claim_C3 (env : Nat → Transport) (retries : Nat) (disk : Option Nat)
    (i : Nat) (rec : AttemptRec)
    (h : (downloadWithResume env retries disk).attempts[i]? = some rec) :
    rec.offsetUsed
      = diskSize disk + sumWritten ((downloadWithResume env retries disk).attempts.take i) ∧
    rec.rangeHeader = (if 0 < rec.offsetUsed then some rec.offsetUsed else none) := by
  obtain ⟨-, h2, h3, -⟩ := dwrGo_offsets env retries 0 disk i rec h
  exact ⟨h2, h3⟩



/-- Witness for claim C3: after a first attempt that appended 5 bytes
and failed, the second attempt resumes at exactly offset 5 and sends
`Range: bytes=5-`. -/
theorem claim_C3_witness :
    (downloadWithResume envWitA 5 none).attempts[1]? = some recWitA ∧
    (recWitA.offsetUsed
       = diskSize none + sumWritten ((downloadWithResume envWitA 5 none).attempts.take 1) ∧
     recWitA.rangeHeader
       = (if 0 < recWitA.offsetUsed then some recWitA.offsetUsed else none)) :=
  ⟨by decide, claim_C3 envWitA 5 none 1 recWitA (by decide)⟩

/-- Claim C4: a range-not-satisfiable (416) response makes the attempt
return success immediately with zero bytes written — it is the last
attempt of the trace and the whole transfer resolves successfully —
writes happen only under a 200 or 206 response, and a status outside
the accepted set is never an accepted outcome: it is recorded as an
error with nothing written. -/
theorem claim_C4 (env : Nat → Transport) (retries : Nat) (disk : Option Nat)
    (i : Nat) (rec : AttemptRec)
    (h : (downloadWithResume env retries disk).attempts[i]? = some rec) :
    (rec.outcome = .got416 →
       rec.bytesWritten = 0 ∧ rec.code? = some 416 ∧
       i + 1 = (downloadWithResume env retries disk).attempts.length ∧
       (downloadWithResume env retries disk).result = .success) ∧
    (0 < rec.bytesWritten → rec.code? = some 200 ∨ rec.code? = some 206) ∧
    (∀ c, rec.code? = some c → validateStatus c = false →
       rec.outcome = .httpError ∧ rec.bytesWritten = 0) := by
  obtain ⟨-, -, -, h416, hwr, hbad⟩ := dwrGo_offsets env retries 0 disk i rec h
  refine ⟨?_, hwr, hbad⟩
  intro hrec
  obtain ⟨hlast, hres⟩ := dwrGo_got416 env retries 0 disk i rec h hrec
  exact ⟨(h416 hrec).1, (h416 hrec).2, hlast, hres⟩



/-- Witness for claim C4: against an already-complete 12-byte file a
416 response ends the transfer successfully on the first attempt with
zero writes. -/
theorem claim_C4_witness :
    (downloadWithResume envWit416 5 (some 12)).attempts[0]? = some recWit416 ∧
    (recWit416.bytesWritten = 0 ∧ recWit416.code? = some 416 ∧
     0 + 1 = (downloadWithResume envWit416 5 (some 12)).attempts.length ∧
     (downloadWithResume envWit416 5 (some 12)).result = .success) :=
  ⟨by decide,
   (claim_C4 envWit416 5 (some 12) 0 recWit416 (by decide)).1 (by decide)⟩

/-- Claim C5: every failed attempt `i` strictly below the retry budget
is followed by a backoff wait of `min(2 ^ i * 1000 ms, 30000 ms)` —
doubling per attempt up to the fixed cap — after which the transfer
restarts from the offset-read step; the trace never exceeds
`retries + 1` attempts, a failing transfer uses exactly `retries + 1`
attempts, and the final attempt is never followed by a wait: at the
budget the error is rethrown terminally. -/
theorem claim_C5 (env : Nat → Transport) (retries : Nat) (disk : Option Nat) :
    (downloadWithResume env retries disk).attempts.length ≤ retries + 1 ∧
    ((downloadWithResume env retries disk).result = .failure →
       (downloadWithResume env retries disk).attempts.length = retries + 1) ∧
    (∀ i rec, (downloadWithResume env retries disk).attempts[i]? = some rec →
       rec.idx = i ∧
       (i + 1 < (downloadWithResume env retries disk).attempts.length →
          rec.delayAfter = some (min (2 ^ i * 1000) 30000)) ∧
       (i + 1 = (downloadWithResume env retries disk).attempts.length →
          rec.delayAfter = none)) := by
  obtain ⟨-, hle, hfail⟩ := dwrGo_length env retries 0 disk
  refine ⟨hle, hfail, ?_⟩
  intro i rec h
  obtain ⟨hidx, -⟩ := dwrGo_offsets env retries 0 disk i rec h
  obtain ⟨hd1, hd2⟩ := dwrGo_delays env retries 0 disk i rec h
  exact ⟨by simpa using hidx, by simpa using hd1, hd2⟩



/-- Witness for claim C5: with budget 2 and a permanently failing
transport, the trace has exactly 3 attempts, rejects, and attempt 0 is
followed by the 1000 ms backoff `min(2 ^ 0 * 1000, 30000)`. -/
theorem claim_C5_witness :
    (downloadWithResume envWitFail 2 none).result = .failure ∧
    (downloadWithResume envWitFail 2 none).attempts.length = 2 + 1 ∧
    (downloadWithResume envWitFail 2 none).attempts[0]? = some recWitFail ∧
    recWitFail.delayAfter = some (min (2 ^ 0 * 1000) 30000) :=
  ⟨by decide,
   (claim_C5 envWitFail 2 none).2.1 (by decide),
   by decide,
   ((claim_C5 envWitFail 2 none).2.2 0 recWitFail (by decide)).2.1 (by decide)⟩

/-! ### Congruence of the driver loop in the download outcomes -/

theorem roundStep_setDownloadOk (env : Nat → CourseEnv) (dlOk : Nat → Bool) :
    roundStep (setDownloadOk env dlOk) = roundStep env := rfl

theorem runRound_setDownloadOk (env : Nat → CourseEnv) (dlOk : Nat → Bool)
    (pending : List Course) :
    runRound (setDownloadOk env dlOk) pending = runRound env pending := by
  unfold runRound
  rw [roundStep_setDownloadOk]

theorem checkStatusAndDownload_setDownloadOk (env : Nat → CourseEnv)
    (dlOk : Nat → Bool) :
    ∀ fuel pending, checkStatusAndDownload (setDownloadOk env dlOk) fuel pending
        = checkStatusAndDownload env fuel pending := by
  intro fuel
  induction fuel with
  | zero => intro pending; rfl
  | succ n ih =>
    intro pending
    simp only [checkStatusAndDownload, runRound_setDownloadOk, ih]

/-! ### Claims about the scheduler -/

/-- Claim C2: for the configured capacity `MAX_CONCURRENT_DOWNLOADS = 10`
and every sequence of submissions and completions, at no instant are
more than 10 task bodies executing concurrently: in every reachable
scheduler state the `activeDownloads` counter never exceeds the
capacity, and it equals the number of running task bodies, so a task
body only ever starts while the counter is at most the capacity. -/
theorem claim_C2 (evts : List SchedEvent) :
    (runEvents evts).activeDownloads ≤ MAX_CONCURRENT_DOWNLOADS ∧
    (runEvents evts).running.length ≤ MAX_CONCURRENT_DOWNLOADS ∧
    (runEvents evts).activeDownloads = (runEvents evts).running.length := by
  obtain ⟨h1, h2, -⟩ := schedInv_runEvents evts
  exact ⟨h2, h1 ▸ h2, h1⟩

/-- Claim C8: in every reachable scheduler state the queued waiters sit
in the queue in submission order (ids are handed out in submission
order, and the queue is strictly increasing), and when a running task
body completes while the queue is nonempty, the very same completion
step hands the freed slot to the head of the queue: the head is
started, removed from the queue, and the counter is unchanged. -/
theorem claim_C8 (evts : List SchedEvent) :
    (runEvents evts).downloadQueue.Pairwise (· < ·) ∧
    (∀ t ok next rest, t ∈ (runEvents evts).running →
      (runEvents evts).downloadQueue = next :: rest →
      (schedStep (runEvents evts) (.complete t ok)).started
          = (runEvents evts).started ++ [next] ∧
      (schedStep (runEvents evts) (.complete t ok)).downloadQueue = rest ∧
      (schedStep (runEvents evts) (.complete t ok)).activeDownloads
          = (runEvents evts).activeDownloads) := by
  obtain ⟨h1, h2, h3, h4, h5, h6⟩ := schedInv_runEvents evts
  refine ⟨h4, ?_⟩
  intro t ok next rest hmem hq
  have hpos : 1 ≤ (runEvents evts).running.length :=
    List.length_pos.mpr (List.ne_nil_of_mem hmem)
  simp only [schedStep, hmem, if_true]
  unfold complete
  simp only [hq]
  refine ⟨trivial, trivial, ?_⟩
  omega

/-- Witness for claim C8 at a concrete run: eleven submissions fill the
ten slots and queue task 10; completing task 0 starts task 10 in the
same step, empties the queue and leaves the counter unchanged. -/
theorem claim_C8_witness :
    (schedStep (runEvents (List.replicate 11 SchedEvent.submit))
        (.complete 0 true)).started
      = (runEvents (List.replicate 11 SchedEvent.submit)).started ++ [10] ∧
    (schedStep (runEvents (List.replicate 11 SchedEvent.submit))
        (.complete 0 true)).downloadQueue = [] ∧
    (schedStep (runEvents (List.replicate 11 SchedEvent.submit))
        (.complete 0 true)).activeDownloads
      = (runEvents (List.replicate 11 SchedEvent.submit)).activeDownloads :=
  (claim_C8 (List.replicate 11 SchedEvent.submit)).2 0 true 10 []
    (by decide) (by decide)

/-- Claim C9: a task body that fails surfaces its failure only through
its own completion handle.  Completing a task body with failure has
exactly the same scheduling effect as completing it with success — the
slot is released and the head of the queue is started — and it only
appends the rejection of that task's own promise to the settled
results, leaving every earlier result in place.  Moreover the driver
loop's behaviour is entirely independent of the success or failure of
the dispatched transfers (`Promise.all` failures are caught and only
logged), so an exhausted retry budget aborts neither sibling transfers
nor the polling loop. -/
theorem claim_C9 :
    (∀ (s : SchedState) (t : Nat),
      (complete s t false).activeDownloads = (complete s t true).activeDownloads ∧
      (complete s t false).downloadQueue = (complete s t true).downloadQueue ∧
      (complete s t false).running = (complete s t true).running ∧
      (complete s t false).started = (complete s t true).started ∧
      (complete s t false).results = s.results ++ [(t, false)]) ∧
    (∀ (env : Nat → CourseEnv) (dlOk1 dlOk2 : Nat → Bool) (fuel : Nat)
        (pending : List Course),
      checkStatusAndDownload (setDownloadOk env dlOk1) fuel pending
        = checkStatusAndDownload (setDownloadOk env dlOk2) fuel pending) := by
  constructor
  · intro s t
    unfold complete
    cases hq : s.downloadQueue <;> simp [hq]
  · intro env dlOk1 dlOk2 fuel pending
    rw [checkStatusAndDownload_setDownloadOk, checkStatusAndDownload_setDownloadOk]

/-! ### The driver loop never re-pends a course -/

theorem roundStep_stillPending (env : Nat → CourseEnv) (s : RoundState)
    (c : Course) : (roundStep env s c).stillPending = s.stillPending := by
  unfold roundStep
  by_cases h : (env c.id).fileExported <;>
    simp [h, downloadFilesFromCourseCall, truthy]

theorem foldl_roundStep_stillPending (env : Nat → CourseEnv) :
    ∀ (pending : List Course) (s : RoundState),
      (pending.foldl (roundStep env) s).stillPending = s.stillPending := by
  intro pending
  induction pending with
  | nil => intro s; rfl
  | cons c rest ih =>
    intro s
    rw [List.foldl_cons, ih, roundStep_stillPending]

theorem runRound_stillPending (env : Nat → CourseEnv) (pending : List Course) :
    (runRound env pending).stillPending = [] :=
  foldl_roundStep_stillPending env pending ⟨[], [], []⟩

theorem checkStatusAndDownload_one_round (env : Nat → CourseEnv)
    (fuel : Nat) (pending : List Course) :
    checkStatusAndDownload env (fuel + 1) pending
      = (.finished, [runRound env pending]) := by
  simp [checkStatusAndDownload, runRound_stillPending]

/-! ### Claims about the poller -/

/-- Claim C6: whenever `getActiveCourseExport` selects an entry from a
successfully fetched listing, the selected entry qualifies (state
`exported`, non-null attachment, `created_at` at or after the cutoff)
and its `created_at` is the latest among all qualifying entries of the
listing. -/
theorem claim_C6 (exports : List ExportItem) (e : ExportItem)
    (h : getActiveCourseExport (.ok exports) = some e) :
    isActiveExport e = true ∧
    (∀ e2 ∈ exports, isActiveExport e2 = true → e2.created_at ≤ e.created_at) := by
  unfold getActiveCourseExport at h
  dsimp only at h
  cases hs : (exports.filter isActiveExport).insertionSort newerEq with
  | nil => rw [hs] at h; simp at h
  | cons a t =>
    rw [hs] at h
    simp only [List.head?_cons, Option.some.injEq] at h
    subst h
    have hperm : List.Perm ((exports.filter isActiveExport).insertionSort newerEq)
        (exports.filter isActiveExport) := List.perm_insertionSort newerEq _
    have hmem : a ∈ exports.filter isActiveExport := by
      refine hperm.mem_iff.mp ?_
      rw [hs]
      exact List.mem_cons_self _ _
    have hsorted : List.Sorted newerEq
        ((exports.filter isActiveExport).insertionSort newerEq) :=
      List.sorted_insertionSort newerEq _
    refine ⟨(List.mem_filter.mp hmem).2, ?_⟩
    intro e2 he2 hact
    have he2f : e2 ∈ exports.filter isActiveExport :=
      List.mem_filter.mpr ⟨he2, hact⟩
    have he2s : e2 ∈ (exports.filter isActiveExport).insertionSort newerEq :=
      hperm.mem_iff.mpr he2f
    rw [hs] at he2s
    rcases List.mem_cons.mp he2s with rfl | he2t
    · exact Nat.le_refl _
    · rw [hs] at hsorted
      exact List.rel_of_sorted_cons hsorted e2 he2t

/-- Witness for claim C6: of two qualifying entries with
`created_at` values `t1 < t2`, the one with `t2` is selected. -/
theorem claim_C6_witness :
    getActiveCourseExport (.ok [exWitOld, exWitNew]) = some exWitNew ∧
    exWitOld.created_at ≤ exWitNew.created_at :=
  ⟨by decide,
   (claim_C6 [exWitOld, exWitNew] exWitNew (by decide)).2 exWitOld
     (by decide) (by decide)⟩

/-- Claim C7 (code bug): for a pending course whose listing holds zero
qualifying entries, the round issues exactly one create-export request
and dispatches no transfer — but the course does NOT remain in the
pending set for the next round: `downloadFilesFromCourse` is an
`async function`, so the un-awaited call on line 221 always evaluates
to a Promise object, which is truthy, making the
`stillPending.push(course)` branch on line 225 unreachable; the
pending set is empty after the round and the driver loop exits. -/
theorem claim_C7 :
    (runRound envWitC7 [courseWitC7]).events = [.createExport 101] ∧
    (runRound envWitC7 [courseWitC7]).stillPending = [] ∧
    checkStatusAndDownload envWitC7 5 [courseWitC7]
      = (.finished, [runRound envWitC7 [courseWitC7]]) :=
  ⟨rfl, rfl, checkStatusAndDownload_one_round envWitC7 4 [courseWitC7]⟩

/-- Claim C1 (code bug): courses leave the pending set without their
artifact existing on disk, and the loop exits regardless.  Course 1
has no qualifying export: only a create-export is issued, yet the
truthy async promise keeps it out of `stillPending`.  Course 2 gets a
transfer dispatched whose failure cannot re-pend it either.  Neither
has an `.imscc` artifact (`fileExported = false`), yet after one round
the pending set is empty and the loop exits `finished`. -/
theorem claim_C1 :
    (envWitC1 1).fileExported = false ∧
    (envWitC1 2).fileExported = false ∧
    (runRound envWitC1 [courseWitB1, courseWitB2]).events
      = [.createExport 1, .dispatchDownload 2 attWitC1] ∧
    (runRound envWitC1 [courseWitB1, courseWitB2]).stillPending = [] ∧
    checkStatusAndDownload envWitC1 5 [courseWitB1, courseWitB2]
      = (.finished, [runRound envWitC1 [courseWitB1, courseWitB2]]) :=
  ⟨rfl, rfl, by decide, rfl,
   checkStatusAndDownload_one_round envWitC1 4 [courseWitB1, courseWitB2]⟩

/-- Counterexample to claim C10 as stated: with a failing listing the
caller does issue a create-export request, but the course does not
stay in the pending set — `stillPending` remains empty. -/
theorem claim_C10_counter :
    getActiveCourseExport (.error ()) = none ∧
    downloadFilesFromCourse (.error ()) = .createExport ∧
    (runRound envWitC10 [courseWitC10]).events = [.createExport 7] ∧
    courseWitC10 ∉ (runRound envWitC10 [courseWitC10]).stillPending :=
  ⟨rfl, rfl, by decide, by decide⟩

/-- Claim C10 (amended): a failed list-exports request makes
`getActiveCourseExport` return null rather than propagate the error,
exactly as for a listing with no qualifying entry, so
`downloadFilesFromCourse` cannot distinguish the two and responds to
both by issuing a create-export request and dispatching no transfer;
the course does not, however, remain in the driver loop's pending set
(the async call is truthy, so `stillPending` stays empty). -/
theorem claim_C10 (l : List ExportItem) (hl : l.filter isActiveExport = []) :
    getActiveCourseExport (.error ()) = none ∧
    getActiveCourseExport (.ok l) = none ∧
    downloadFilesFromCourse (.error ()) = .createExport ∧
    downloadFilesFromCourse (.error ()) = downloadFilesFromCourse (.ok l) ∧
    (∀ (env : Nat → CourseEnv) (pending : List Course),
       (runRound env pending).stillPending = []) := by
  have hok : getActiveCourseExport (.ok l) = none := by
    unfold getActiveCourseExport
    dsimp only
    rw [hl]
    rfl
  refine ⟨rfl, hok, rfl, ?_, fun env pending => runRound_stillPending env pending⟩
  unfold downloadFilesFromCourse
  rw [hok]
  rfl

/-- Witness for claim C10 at the empty listing. -/
theorem claim_C10_witness :
    ([] : List ExportItem).filter isActiveExport = [] ∧
    getActiveCourseExport (.ok ([] : List ExportItem)) = none ∧
    downloadFilesFromCourse (.error ())
      = downloadFilesFromCourse (.ok ([] : List ExportItem)) :=
  ⟨rfl, (claim_C10 [] rfl).2.1, (claim_C10 [] rfl).2.2.2.1⟩

end CanvasExporter
